import Mathlib

/-!
Verification of the caching back-end of the presence-analyzer repository
(`src/presence_analyzer/cache.py`).

The file shallowly embeds the two classes of that module:

* `Cache` — the abstract base class whose `get` and `set_expire` raise
  `NotImplementedError`, and whose `get_or_set` composes them;
* `MemoryCache` — the dictionary-backed concrete back-end with
  `hash_args_kwargs`, `clean`, `get` and `set_expire`.

Python values are modelled by `PyVal` (enough of the value universe to
express truthiness, which `get_or_set`'s `if not cached:` test depends on).
A producer (the cached function) is a name together with a fallible
function from arguments to a value; raising an exception is modelled by
`Except`.  Wall-clock time (`datetime.now()`) is passed explicitly as a
natural number `now`; `timedelta(seconds=time)` becomes addition.

The store `self.cache` is an association list from derived keys to entries
`\x7bresult, expire_time\x7d`, with Python-dict overwrite semantics for
assignment.  The stateful methods return their Python return value, the
post-state of the store, and the number of times the producer was invoked
during the call (the instrumentation needed to state the
"at-most-one-population" property).
-/

/-- Model of a Python runtime value: `None`, booleans, integers and
strings.  This fragment suffices for the cache, whose stored results are
opaque; what matters is equality and truthiness. -/
inductive PyVal where
  | none
  | bool (b : Bool)
  | int (n : Int)
  | str (s : String)
deriving DecidableEq, Repr

/-- Python truthiness: `None`, `False`, `0` and `""` are falsy.
`get_or_set` tests `if not cached:`, which branches on this. -/
def PyVal.truthy : PyVal → Bool
  | .none => false
  | .bool b => b
  | .int n => decide (n ≠ 0)
  | .str s => decide (s ≠ "")

/-- A Python exception as observed by the cache: the base class raises
`NotImplementedError`; a producer may raise anything, modelled by a
message. -/
inductive PyExn where
  | notImplementedError
  | userError (msg : String)
deriving DecidableEq, Repr

/-- Positional arguments of a call (`*args`). -/
abbrev Args := List PyVal

/-- Keyword arguments of a call (`**kwargs`), as name/value pairs.
A genuine Python `kwargs` dict has pairwise-distinct names. -/
abbrev Kwargs := List (String × PyVal)

/-- A producer (the cached function): its `__name__`, and its behaviour —
a function from arguments to either a raised exception or a result.  Two
distinct Python function objects may share a `__name__`. -/
structure Producer where
  name : String
  run : Args → Kwargs → Except PyExn PyVal

/-- Ordering of keyword-argument pairs by argument name, used to give the
`kwargs` dict its canonical (content-determined) serialisation order. -/
def kwLE (a b : String × PyVal) : Prop := a.1 ≤ b.1

instance : DecidableRel kwLE := fun a b => inferInstanceAs (Decidable (a.1 ≤ b.1))

instance : IsTotal (String × PyVal) kwLE := ⟨fun a b => le_total a.1 b.1⟩

instance : IsTrans (String × PyVal) kwLE := ⟨fun _ _ _ h h' => le_trans h h'⟩

/-- Canonical form of a `kwargs` dict: its pairs sorted by argument name.
`cPickle.dumps` serialises a string-keyed dict in its content-determined
iteration order, so dicts with equal contents serialise identically
regardless of the order the keyword arguments were written in; sorting
models that canonicalisation. -/
def sortKwargs (kwargs : Kwargs) : Kwargs := List.insertionSort kwLE kwargs

/-- A derived cache key.  `cPickle.dumps` is an injective serialisation of
the tuple `(function.__name__, args, kwargs)`, so the key is modelled by
the tuple itself (with `kwargs` in canonical order). -/
abbrev Key := String × Args × Kwargs

/-- Embedding of `MemoryCache.hash_args_kwargs`: returns
`cPickle.dumps((function.__name__, args, kwargs))` — an identifier built
from the function NAME (not the function object), the positional
arguments, and the keyword arguments. -/
def MemoryCache.hash_args_kwargs (function : Producer) (args : Args)
    (kwargs : Kwargs) : Key :=
  (function.name, args, sortKwargs kwargs)

/-- A cache entry: the dict `\x7b'result': ..., 'expire_time': ...\x7d` stored
under a key. -/
structure Entry where
  result : PyVal
  expire_time : Nat
deriving DecidableEq, Repr

/-- The store `self.cache`: a mapping from keys to entries, as an
association list. -/
abbrev Store := List (Key × Entry)

/-- Dict lookup: `self.cache[k]` when present. -/
def Store.lookup : Store → Key → Option Entry
  | [], _ => Option.none
  | (k, e) :: rest, k' => if k' = k then some e else Store.lookup rest k'

/-- Dict assignment `self.cache[k] = e`: overwrites an existing binding
for `k`, otherwise appends a new one. -/
def Store.insert : Store → Key → Entry → Store
  | [], k, e => [(k, e)]
  | (k', e') :: rest, k, e =>
      if k = k' then (k, e) :: rest else (k', e') :: Store.insert rest k e

/-- Embedding of `MemoryCache.clean`: `self.cache = \x7b\x7d` — rebinds the store to a fresh
empty dict. -/
def MemoryCache.clean (_ : Store) : Store := []

/-- Embedding of `MemoryCache.get`: computes the key; the entry is a valid hit when it
is present and `expire_time > now`; on a hit returns the stored result,
otherwise the method falls off the end and returns `None`. -/
def MemoryCache.get (st : Store) (function : Producer) (args : Args)
    (kwargs : Kwargs) (now : Nat) : PyVal :=
  let function_hash := MemoryCache.hash_args_kwargs function args kwargs
  match st.lookup function_hash with
  | some entry => if now < entry.expire_time then entry.result else PyVal.none
  | Option.none => PyVal.none

/-- Stateful view of `MemoryCache.get`: the method body contains no
assignment to `self.cache`, so the post-state is the pre-state. -/
def MemoryCache.getS (st : Store) (function : Producer) (args : Args)
    (kwargs : Kwargs) (now : Nat) : PyVal × Store :=
  (MemoryCache.get st function args kwargs now, st)

/-- Embedding of `MemoryCache.set_expire`: computes the key, then (under the lock)
invokes the producer; on success stores
`\x7b'result': result, 'expire_time': now + time\x7d` under the key and returns
the result.  If the producer raises, the assignment to `self.cache` never
executes and the exception propagates.  The third component counts
producer invocations (always exactly one here). -/
def MemoryCache.set_expireS (st : Store) (function : Producer) (time : Nat)
    (args : Args) (kwargs : Kwargs) (now : Nat) :
    Except PyExn PyVal × Store × Nat :=
  let function_hash := MemoryCache.hash_args_kwargs function args kwargs
  match function.run args kwargs with
  | .error e => (.error e, st, 1)
  | .ok result =>
      (.ok result, st.insert function_hash ⟨result, now + time⟩, 1)

/-- Embedding of `Cache.get_or_set` as inherited by `MemoryCache`:
`cached = self.get(...)`; `if not cached: cached = self.set_expire(...)`;
`return cached`.  The branch tests Python truthiness of the value
returned by `get`.  The third component counts producer invocations. -/
def MemoryCache.get_or_setS (st : Store) (function : Producer) (time : Nat)
    (args : Args) (kwargs : Kwargs) (now : Nat) :
    Except PyExn PyVal × Store × Nat :=
  let cached := MemoryCache.get st function args kwargs now
  if cached.truthy then (.ok cached, st, 0)
  else MemoryCache.set_expireS st function time args kwargs now

/-- Embedding of `Cache.get` on the abstract base class: `raise NotImplementedError`,
for any producer and any arguments. -/
def Cache.get (_ : Producer) (_ : Args) (_ : Kwargs) : Except PyExn PyVal :=
  .error PyExn.notImplementedError

/-- Embedding of `Cache.set_expire` on the abstract base class:
`raise NotImplementedError`, for any producer, ttl and arguments. -/
def Cache.set_expire (_ : Producer) (_ : Nat) (_ : Args) (_ : Kwargs) :
    Except PyExn PyVal :=
  .error PyExn.notImplementedError

/-- Strict ordering of keyword-argument pairs by argument name. -/
def kwLT (a b : String × PyVal) : Prop := a.1 < b.1

instance : IsAntisymm (String × PyVal) kwLT :=
  ⟨fun _ _ h h' => absurd (lt_trans h h') (lt_irrefl _)⟩

/-- Example producer named `f` returning the truthy value `1`. -/
def pOne : Producer := ⟨"f", fun _ _ => .ok (PyVal.int 1)⟩

/-- A producer distinct from `pOne` (it returns `2`, not `1`) that
nevertheless has the same `__name__`. -/
def pTwo : Producer := ⟨"f", fun _ _ => .ok (PyVal.int 2)⟩

/-- Example producer named `f` whose result `0` is falsy. -/
def pZero : Producer := ⟨"f", fun _ _ => .ok (PyVal.int 0)⟩

/-- Example producer modelling a data loader that raises on malformed
input. -/
def pBoom : Producer :=
  ⟨"load_data", fun _ _ => .error (PyExn.userError "malformed input")⟩

/-- Dict assignment then lookup of the same key finds the new entry. -/
theorem Store.lookup_insert_self (st : Store) (k : Key) (e : Entry) :
    (st.insert k e).lookup k = some e := by
  induction st with
  | nil => simp [Store.insert, Store.lookup]
  | cons hd rest ih =>
      obtain ⟨k', e'⟩ := hd
      by_cases h : k = k'
      · subst h; simp [Store.insert, Store.lookup]
      · simp [Store.insert, Store.lookup, h, ih]

/-- Dict assignment leaves lookups of every other key unchanged. -/
theorem Store.lookup_insert_ne (st : Store) (k k' : Key) (e : Entry)
    (h : k' ≠ k) : (st.insert k e).lookup k' = st.lookup k' := by
  induction st with
  | nil => simp [Store.insert, Store.lookup, h]
  | cons hd rest ih =>
      obtain ⟨k'', e''⟩ := hd
      by_cases hk : k = k''
      · subst hk; simp [Store.insert, Store.lookup, h]
      · simp only [Store.insert, Store.lookup, if_neg hk]
        by_cases hk' : k' = k''
        · simp [Store.lookup, hk']
        · simp [Store.lookup, hk', ih]

/-- With pairwise-distinct argument names — as Python guarantees for any
`kwargs` dict — the canonical order depends only on the contents:
permuted keyword arguments sort to the same canonical list. -/
theorem sortKwargs_eq_of_perm {kw1 kw2 : Kwargs} (hp : kw1.Perm kw2)
    (hnd : (kw1.map Prod.fst).Nodup) : sortKwargs kw1 = sortKwargs kw2 := by
  have hnd2 : (kw2.map Prod.fst).Nodup := (hp.map Prod.fst).nodup_iff.mp hnd
  have hperm : (sortKwargs kw1).Perm (sortKwargs kw2) :=
    (List.perm_insertionSort kwLE kw1).trans
      (hp.trans (List.perm_insertionSort kwLE kw2).symm)
  have hstrict : ∀ kw : Kwargs, (kw.map Prod.fst).Nodup →
      List.Sorted kwLT (sortKwargs kw) := by
    intro kw hnd'
    have hle : List.Sorted kwLE (sortKwargs kw) :=
      List.sorted_insertionSort kwLE kw
    have hmap : ((sortKwargs kw).map Prod.fst).Nodup :=
      ((List.perm_insertionSort kwLE kw).map Prod.fst).nodup_iff.mpr hnd'
    have hne : (sortKwargs kw).Pairwise (fun a b => a.1 ≠ b.1) :=
      List.pairwise_map.mp hmap
    exact (hle.and hne).imp fun h => lt_of_le_of_ne h.1 h.2
  exact List.eq_of_perm_of_sorted hperm (hstrict kw1 hnd) (hstrict kw2 hnd2)

/-- Claim C8 (confirmed): invoking `get` or `set_expire` on the abstract
base `Cache` raises `NotImplementedError` for any producer, any ttl and
any arguments. -/
theorem base_cache_raises_not_implemented :
    ∀ (f : Producer) (time : Nat) (args : Args) (kwargs : Kwargs),
      Cache.get f args kwargs = Except.error PyExn.notImplementedError ∧
      Cache.set_expire f time args kwargs
        = Except.error PyExn.notImplementedError :=
  fun _ _ _ _ => ⟨rfl, rfl⟩

/-- Claim C6 (confirmed): `MemoryCache.get` never mutates the store — on
a hit, on a miss and on an expired entry alike the post-state equals the
pre-state, so expired entries are not purged by `get`. -/
theorem get_preserves_store :
    ∀ (st : Store) (f : Producer) (args : Args) (kwargs : Kwargs) (now : Nat),
      (MemoryCache.getS st f args kwargs now).2 = st :=
  fun _ _ _ _ _ => rfl

/-- Claim C7 (confirmed): after `clean` every key is absent — whatever
store any sequence of `set_expire` calls produced, `get` on the cleaned
store returns `None` for every producer, arguments and time. -/
theorem clean_then_get_absent :
    ∀ (st : Store) (f : Producer) (args : Args) (kwargs : Kwargs) (now : Nat),
      MemoryCache.get (MemoryCache.clean st) f args kwargs now = PyVal.none :=
  fun _ _ _ _ _ => rfl

/-- Claim C3 (confirmed): `MemoryCache.get` returns the stored result
exactly when the entry for the derived key is present with
`now < expire_time`; once `expire_time ≤ now` the entry is treated as
absent (`None`) although it is still in the store, and a missing entry
also yields `None`. -/
theorem get_hit_iff_present_unexpired :
    ∀ (st : Store) (f : Producer) (args : Args) (kwargs : Kwargs) (now : Nat),
      (∀ e : Entry,
        st.lookup (MemoryCache.hash_args_kwargs f args kwargs) = some e →
        now < e.expire_time →
        MemoryCache.get st f args kwargs now = e.result) ∧
      (∀ e : Entry,
        st.lookup (MemoryCache.hash_args_kwargs f args kwargs) = some e →
        e.expire_time ≤ now →
        MemoryCache.get st f args kwargs now = PyVal.none ∧
        (MemoryCache.getS st f args kwargs now).2.lookup
          (MemoryCache.hash_args_kwargs f args kwargs) = some e) ∧
      (st.lookup (MemoryCache.hash_args_kwargs f args kwargs) = Option.none →
        MemoryCache.get st f args kwargs now = PyVal.none) := by
  intro st f args kwargs now
  refine ⟨?_, ?_, ?_⟩
  · intro e hl hlt
    simp [MemoryCache.get, hl, hlt]
  · intro e hl hle
    exact ⟨by simp [MemoryCache.get, hl, Nat.not_lt.mpr hle], by
      simpa [MemoryCache.getS] using hl⟩
  · intro hl
    simp [MemoryCache.get, hl]

/-- Witness for `get_hit_iff_present_unexpired`: a key populated with
ttl `60` at time `0` hits at time `5` and is absent at time `300`
(5 minutes later), though never removed. -/
theorem get_hit_iff_present_unexpired_witness :
    MemoryCache.get [((("f", [PyVal.int 3], []) : Key), ⟨PyVal.int 1, 60⟩)]
        pOne [PyVal.int 3] [] 5 = PyVal.int 1 ∧
    MemoryCache.get [((("f", [PyVal.int 3], []) : Key), ⟨PyVal.int 1, 60⟩)]
        pOne [PyVal.int 3] [] 300 = PyVal.none :=
  ⟨(get_hit_iff_present_unexpired
      [((("f", [PyVal.int 3], []) : Key), ⟨PyVal.int 1, 60⟩)]
      pOne [PyVal.int 3] [] 5).1 ⟨PyVal.int 1, 60⟩ (by decide) (by decide),
   ((get_hit_iff_present_unexpired
      [((("f", [PyVal.int 3], []) : Key), ⟨PyVal.int 1, 60⟩)]
      pOne [PyVal.int 3] [] 300).2.1 ⟨PyVal.int 1, 60⟩ (by decide)
      (by decide)).1⟩

/-- Claim C4 (confirmed): when the producer returns `r`, `set_expire`
invokes it exactly once whatever the store holds (also on an unexpired
hit), returns `r`, and overwrites the entry at the derived key with
expire time `now + ttl`. -/
theorem set_expire_populates :
    ∀ (st : Store) (f : Producer) (time : Nat) (args : Args)
      (kwargs : Kwargs) (now : Nat) (r : PyVal),
      f.run args kwargs = .ok r →
      MemoryCache.set_expireS st f time args kwargs now =
        (.ok r,
         st.insert (MemoryCache.hash_args_kwargs f args kwargs)
           ⟨r, now + time⟩,
         1) ∧
      (MemoryCache.set_expireS st f time args kwargs now).2.1.lookup
          (MemoryCache.hash_args_kwargs f args kwargs)
        = some ⟨r, now + time⟩ := by
  intro st f time args kwargs now r h
  refine ⟨by simp [MemoryCache.set_expireS, h], ?_⟩
  simp [MemoryCache.set_expireS, h, Store.lookup_insert_self]

/-- Witness for `set_expire_populates`: populating the empty store with
`pOne` stores `1` under the derived key with expire time `600`. -/
theorem set_expire_populates_witness :
    pOne.run [] [] = .ok (PyVal.int 1) ∧
    MemoryCache.set_expireS [] pOne 600 [] [] 0 =
      (.ok (PyVal.int 1), [((("f", [], []) : Key), ⟨PyVal.int 1, 600⟩)], 1) :=
  ⟨rfl, (set_expire_populates [] pOne 600 [] [] 0 (PyVal.int 1) rfl).1⟩

/-- Claim C5 (confirmed): a producer exception propagates unchanged
through `set_expire`, and through `get_or_set` whenever it falls through
to `set_expire`; in both cases the store is left exactly as it was — no
new, partial or overwritten entry. -/
theorem producer_failure_propagates :
    ∀ (st : Store) (f : Producer) (time : Nat) (args : Args)
      (kwargs : Kwargs) (now : Nat) (e : PyExn),
      f.run args kwargs = .error e →
      MemoryCache.set_expireS st f time args kwargs now = (.error e, st, 1) ∧
      (PyVal.truthy (MemoryCache.get st f args kwargs now) = false →
        MemoryCache.get_or_setS st f time args kwargs now
          = (.error e, st, 1)) := by
  intro st f time args kwargs now e h
  constructor
  · simp [MemoryCache.set_expireS, h]
  · intro ht
    simp [MemoryCache.get_or_setS, ht, MemoryCache.set_expireS, h]

/-- Witness for `producer_failure_propagates`: a raising loader leaves
the empty store empty and its exception surfaces through both
`set_expire` and `get_or_set`. -/
theorem producer_failure_propagates_witness :
    pBoom.run [] [] = .error (PyExn.userError "malformed input") ∧
    MemoryCache.set_expireS [] pBoom 600 [] [] 0
      = (.error (PyExn.userError "malformed input"), [], 1) ∧
    MemoryCache.get_or_setS [] pBoom 600 [] [] 0
      = (.error (PyExn.userError "malformed input"), [], 1) :=
  ⟨rfl,
   (producer_failure_propagates [] pBoom 600 [] [] 0
      (PyExn.userError "malformed input") rfl).1,
   (producer_failure_propagates [] pBoom 600 [] [] 0
      (PyExn.userError "malformed input") rfl).2 rfl⟩

/-- Claim C9 (confirmed): populating (by `set_expire` or by `get_or_set`)
with one argument list and then reading with an argument list that
differs in some value returns absent — different arguments never
collide. -/
theorem different_args_never_collide :
    ∀ (f : Producer) (time : Nat) (a1 : Args) (k1 : Kwargs) (a2 : Args)
      (k2 : Kwargs) (now1 now2 : Nat),
      (a1 ≠ a2 ∨ sortKwargs k1 ≠ sortKwargs k2) →
      MemoryCache.get (MemoryCache.set_expireS [] f time a1 k1 now1).2.1
        f a2 k2 now2 = PyVal.none ∧
      MemoryCache.get (MemoryCache.get_or_setS [] f time a1 k1 now1).2.1
        f a2 k2 now2 = PyVal.none := by
  intro f time a1 k1 a2 k2 now1 now2 hdiff
  have hkey : MemoryCache.hash_args_kwargs f a2 k2 ≠
      MemoryCache.hash_args_kwargs f a1 k1 := by
    simp only [MemoryCache.hash_args_kwargs, ne_eq, Prod.mk.injEq, not_and]
    rintro - ha hs
    rcases hdiff with h1 | h2
    · exact h1 ha.symm
    · exact h2 hs.symm
  have hget : ∀ st' : Store,
      st'.lookup (MemoryCache.hash_args_kwargs f a2 k2) = Option.none →
      MemoryCache.get st' f a2 k2 now2 = PyVal.none := by
    intro st' hl
    simp [MemoryCache.get, hl]
  have hmain :
      MemoryCache.get (MemoryCache.set_expireS [] f time a1 k1 now1).2.1
        f a2 k2 now2 = PyVal.none := by
    cases hr : f.run a1 k1 with
    | error e =>
        apply hget
        simp [MemoryCache.set_expireS, hr, Store.lookup]
    | ok r =>
        apply hget
        simp only [MemoryCache.set_expireS, hr]
        rw [Store.lookup_insert_ne _ _ _ _ hkey]
        rfl
  have hsame : MemoryCache.get_or_setS [] f time a1 k1 now1
      = MemoryCache.set_expireS [] f time a1 k1 now1 := rfl
  exact ⟨hmain, by rw [hsame]; exact hmain⟩

/-- Witness for `different_args_never_collide`: caching `f('a','b')` and
then reading `f('c','d')` is absent. -/
theorem different_args_never_collide_witness :
    MemoryCache.get
      (MemoryCache.get_or_setS [] pOne 600
        [PyVal.str "a", PyVal.str "b"] [] 0).2.1
      pOne [PyVal.str "c", PyVal.str "d"] [] 0 = PyVal.none :=
  (different_args_never_collide pOne 600 [PyVal.str "a", PyVal.str "b"] []
    [PyVal.str "c", PyVal.str "d"] [] 0 0 (Or.inl (by decide))).2

/-- Claim C10 (confirmed): `MemoryCache.get` signals absence by returning
the value `None` — it is a total function into `PyVal` and never raises —
so a validly stored `None` result is indistinguishable from absence at
the interface, and `get_or_set` re-invokes the producer on such an
entry. -/
theorem get_absent_is_none :
    ∀ (st : Store) (f : Producer) (args : Args) (kwargs : Kwargs)
      (time now : Nat),
      (st.lookup (MemoryCache.hash_args_kwargs f args kwargs) = Option.none →
        MemoryCache.get st f args kwargs now = PyVal.none) ∧
      (∀ e : Entry,
        st.lookup (MemoryCache.hash_args_kwargs f args kwargs) = some e →
        e.result = PyVal.none → now < e.expire_time →
        MemoryCache.get st f args kwargs now = PyVal.none ∧
        (MemoryCache.get_or_setS st f time args kwargs now).2.2 = 1) := by
  intro st f args kwargs time now
  constructor
  · intro hl
    simp [MemoryCache.get, hl]
  · intro e hl hres hlt
    have hget : MemoryCache.get st f args kwargs now = PyVal.none := by
      simp [MemoryCache.get, hl, hlt, hres]
    refine ⟨hget, ?_⟩
    have ht : (MemoryCache.get st f args kwargs now).truthy = false := by
      rw [hget]
      rfl
    simp only [MemoryCache.get_or_setS, ht, Bool.false_eq_true, if_false]
    cases hr : f.run args kwargs <;> simp [MemoryCache.set_expireS, hr]

/-- Witness for `get_absent_is_none`: an unexpired entry whose stored
result is `None` reads as absent, and `get_or_set` invokes the producer
once on it. -/
theorem get_absent_is_none_witness :
    MemoryCache.get [((("f", [], []) : Key), ⟨PyVal.none, 100⟩)]
        pOne [] [] 0 = PyVal.none ∧
    (MemoryCache.get_or_setS [((("f", [], []) : Key), ⟨PyVal.none, 100⟩)]
        pOne 600 [] [] 0).2.2 = 1 :=
  (get_absent_is_none [((("f", [], []) : Key), ⟨PyVal.none, 100⟩)]
    pOne [] [] 600 0).2 ⟨PyVal.none, 100⟩ (by decide) rfl (by decide)

/-- Counterexample to claim C1 as stated: with producer `pZero`, whose
result `0` is falsy, the second `get_or_set` call finds a valid unexpired
hit — `get` returns the stored `0`, not absence — yet still falls through
to `set_expire` and invokes the producer again: both calls report one
producer invocation, two in total rather than exactly one, because
`get_or_set` tests `if not cached:` (truthiness), not absence. -/
theorem get_or_set_refires_on_falsy_hit :
    MemoryCache.get (MemoryCache.get_or_setS [] pZero 600 [] [] 0).2.1
        pZero [] [] 1 = PyVal.int 0 ∧
    (MemoryCache.get_or_setS [] pZero 600 [] [] 0).2.2 = 1 ∧
    (MemoryCache.get_or_setS
        (MemoryCache.get_or_setS [] pZero 600 [] [] 0).2.1
        pZero 600 [] [] 1).2.2 = 1 := by
  refine ⟨?_, ?_, ?_⟩ <;> decide

/-- Amended claim C1: `get_or_set` falls through to `set_expire` exactly
when the value returned by `get` is FALSY — absence yields `None`, which
is falsy, but a stored falsy result (`0`, `False`, `""`, `None`) also
triggers re-population; when `get` returns a truthy value, `get_or_set`
returns it without invoking the producer.  In particular two `get_or_set`
calls with the same unexpired key invoke the producer exactly once
provided the producer's result is truthy. -/
theorem get_or_set_falls_through_iff_falsy :
    (∀ (st : Store) (f : Producer) (time : Nat) (args : Args)
      (kwargs : Kwargs) (now : Nat),
      (PyVal.truthy (MemoryCache.get st f args kwargs now) = true →
        MemoryCache.get_or_setS st f time args kwargs now
          = (.ok (MemoryCache.get st f args kwargs now), st, 0)) ∧
      (PyVal.truthy (MemoryCache.get st f args kwargs now) = false →
        MemoryCache.get_or_setS st f time args kwargs now
          = MemoryCache.set_expireS st f time args kwargs now ∧
        (MemoryCache.get_or_setS st f time args kwargs now).2.2 = 1)) ∧
    (∀ (f : Producer) (time : Nat) (args : Args) (kwargs : Kwargs)
      (now1 now2 : Nat) (r : PyVal),
      f.run args kwargs = .ok r → PyVal.truthy r = true →
      now2 < now1 + time →
      (MemoryCache.get_or_setS [] f time args kwargs now1).2.2
        + (MemoryCache.get_or_setS
            (MemoryCache.get_or_setS [] f time args kwargs now1).2.1
            f time args kwargs now2).2.2 = 1 ∧
      (MemoryCache.get_or_setS
          (MemoryCache.get_or_setS [] f time args kwargs now1).2.1
          f time args kwargs now2).1 = .ok r) := by
  constructor
  · intro st f time args kwargs now
    constructor
    · intro ht
      simp [MemoryCache.get_or_setS, ht]
    · intro hf
      refine ⟨by simp [MemoryCache.get_or_setS, hf], ?_⟩
      simp only [MemoryCache.get_or_setS, hf, Bool.false_eq_true, if_false]
      cases hr : f.run args kwargs <;> simp [MemoryCache.set_expireS, hr]
  · intro f time args kwargs now1 now2 r hr htr hlt
    have hget0 : MemoryCache.get [] f args kwargs now1 = PyVal.none := rfl
    have h1 : MemoryCache.get_or_setS [] f time args kwargs now1 =
        (.ok r,
         Store.insert [] (MemoryCache.hash_args_kwargs f args kwargs)
           ⟨r, now1 + time⟩,
         1) := by
      simp [MemoryCache.get_or_setS, hget0, PyVal.truthy,
        MemoryCache.set_expireS, hr]
    set st1 := (MemoryCache.get_or_setS [] f time args kwargs now1).2.1
      with hst1
    have hstore : st1 =
        Store.insert [] (MemoryCache.hash_args_kwargs f args kwargs)
          ⟨r, now1 + time⟩ := by
      rw [hst1, h1]
    have hget2 : MemoryCache.get st1 f args kwargs now2 = r := by
      rw [hstore]
      simp [MemoryCache.get, Store.lookup_insert_self, hlt]
    have h2 : MemoryCache.get_or_setS st1 f time args kwargs now2
        = (.ok r, st1, 0) := by
      simp only [MemoryCache.get_or_setS]
      simp [hget2, htr]
    rw [h2, h1]
    exact ⟨rfl, rfl⟩

/-- Witness for `get_or_set_falls_through_iff_falsy`: with the truthy
producer `pOne`, two calls on the same fresh key perform exactly one
producer invocation and the second call returns the cached `1`. -/
theorem get_or_set_falls_through_iff_falsy_witness :
    pOne.run [] [] = .ok (PyVal.int 1) ∧
    (MemoryCache.get_or_setS [] pOne 600 [] [] 0).2.2
      + (MemoryCache.get_or_setS
          (MemoryCache.get_or_setS [] pOne 600 [] [] 0).2.1
          pOne 600 [] [] 5).2.2 = 1 ∧
    (MemoryCache.get_or_setS
        (MemoryCache.get_or_setS [] pOne 600 [] [] 0).2.1
        pOne 600 [] [] 5).1 = .ok (PyVal.int 1) :=
  ⟨rfl,
   (get_or_set_falls_through_iff_falsy.2 pOne 600 [] [] 0 5 (PyVal.int 1)
      rfl rfl (by decide)).1,
   (get_or_set_falls_through_iff_falsy.2 pOne 600 [] [] 0 5 (PyVal.int 1)
      rfl rfl (by decide)).2⟩

/-- Counterexample to claim C2 as stated: `pOne` and `pTwo` are distinct
producers (they return different results for the same call), yet because
`hash_args_kwargs` serialises only `function.__name__` — and both are
named `f` — they derive the SAME key, so a difference in producer
identity does not always yield a different key. -/
theorem same_name_producers_collide :
    MemoryCache.hash_args_kwargs pOne [] []
      = MemoryCache.hash_args_kwargs pTwo [] [] ∧ pOne ≠ pTwo := by
  refine ⟨rfl, fun h => ?_⟩
  have h2 := congrArg (fun p => p.run [] []) h
  simp only [pOne, pTwo] at h2
  exact absurd (PyVal.int.inj (Except.ok.inj h2)) (by decide)

/-- Amended claim C2: key derivation is a pure function of the
producer's `__name__` (not of the producer object's identity), the
positional argument values and the keyword-argument contents: identical
name and argument values — keyword arguments in any order — yield the
same key, and keys are equal exactly when the name, the positional
arguments and the canonical keyword-argument contents are all equal, so
any difference in one of those yields a different key; two distinct
producers sharing a `__name__` collide. -/
theorem hash_pure_function_of_name_args_kwargs :
    (∀ (f g : Producer) (args : Args) (kw1 kw2 : Kwargs),
      f.name = g.name → kw1.Perm kw2 → (kw1.map Prod.fst).Nodup →
      MemoryCache.hash_args_kwargs f args kw1
        = MemoryCache.hash_args_kwargs g args kw2) ∧
    (∀ (f g : Producer) (a1 a2 : Args) (k1 k2 : Kwargs),
      MemoryCache.hash_args_kwargs f a1 k1
          = MemoryCache.hash_args_kwargs g a2 k2
        ↔ (f.name = g.name ∧ a1 = a2 ∧ sortKwargs k1 = sortKwargs k2)) := by
  constructor
  · intro f g args kw1 kw2 hn hp hnd
    simp [MemoryCache.hash_args_kwargs, hn, sortKwargs_eq_of_perm hp hnd]
  · intro f g a1 a2 k1 k2
    simp [MemoryCache.hash_args_kwargs, Prod.ext_iff]

/-- Witness for `hash_pure_function_of_name_args_kwargs`: two producers
sharing the name `f`, with the same keyword arguments written in the two
possible orders, derive the same key. -/
theorem hash_pure_function_of_name_args_kwargs_witness :
    MemoryCache.hash_args_kwargs pOne []
        [("x", PyVal.int 1), ("y", PyVal.int 2)]
      = MemoryCache.hash_args_kwargs pZero []
        [("y", PyVal.int 2), ("x", PyVal.int 1)] :=
  hash_pure_function_of_name_args_kwargs.1 pOne pZero []
    [("x", PyVal.int 1), ("y", PyVal.int 2)]
    [("y", PyVal.int 2), ("x", PyVal.int 1)]
    rfl (List.Perm.swap _ _ _) (by decide)
